import Mathlib

/-!
# Verification of the CCB semi-supervised training loop (`train_2d_ACDC_CCB.py`)

Shallow embedding of the algorithmic core of the CCB training script:
the `patients_to_slices` lookup, the teacher EMA update
(`update_ema_variables`), the checkpoint save/load round trip, the
teacher construction and its storage aliasing, the in-step execution
order, the global step counter `iters`, and (modelled from the spec,
because `util/CCB_utils.py` is not part of the sources) the
class-aware threshold state and the boundary contrastive loss.

Tensors of real numbers are embedded as lists of rationals; the Python
heap, where tensor storage matters, is embedded as a function from
addresses to values.
-/

namespace CCB

/-! ## `patients_to_slices` (source lines 62-72)

```python
def patients_to_slices(dataset, patiens_num):
    ref_dict = None
    if "ACDC" in dataset:
        ref_dict = {"1": 32, ...}
    elif "Prostate":
        ref_dict = {"2": 27, ...}
    else:
        print("Error")
    return ref_dict[patiens_num]
```
The `elif` tests the constant string `"Prostate"`, whose Python
truthiness is `len("Prostate") != 0`. -/

/-- The ACDC lookup table from source line 65-66. -/
def acdc_ref_dict : List (String × Nat) :=
  [("1", 32), ("3", 68), ("7", 136), ("14", 256), ("21", 396),
   ("28", 512), ("35", 664), ("140", 1312)]

/-- The Prostate lookup table from source line 68-69. -/
def prostate_ref_dict : List (String × Nat) :=
  [("2", 27), ("4", 53), ("8", 120), ("12", 179), ("16", 256),
   ("21", 312), ("42", 623)]

/-- Python `"ACDC" in dataset`: substring containment. -/
def strContains (needle hay : String) : Bool :=
  decide (needle.data <:+: hay.data)

/-- The `ref_dict` selected by the `if`/`elif`/`else` chain of
`patients_to_slices`; `none` models the `else` branch where `ref_dict`
stays Python `None`. The `elif` condition is the truthiness of the
constant string `"Prostate"`. -/
def patients_to_slices_table (dataset : String) : Option (List (String × Nat)) :=
  if strContains "ACDC" dataset then some acdc_ref_dict
  else if "Prostate".length ≠ 0 then some prostate_ref_dict
  else none

/-- `patients_to_slices`: select the table, then subscript it with
`patiens_num`; `none` models a raised `KeyError` (or the `TypeError`
on `None` in the unreachable `else` branch). -/
def patients_to_slices (dataset patiens_num : String) : Option Nat :=
  (patients_to_slices_table dataset).bind (fun t => t.lookup patiens_num)

/-! ## Teacher EMA update (`update_ema_variables`, source lines 82-89)

```python
def update_ema_variables(model, model_teacher, ema_decay, iters):
    ema_decay = min(1 - 1 / (iters + 1), ema_decay, )
    for param_train, param_eval in zip(model.parameters(), model_teacher.parameters()):
        param_eval.data = param_eval.data * ema_decay + param_train.data * (1 - ema_decay)
    for buffer_train, buffer_eval in zip(model.buffers(), model_teacher.buffers()):
        buffer_eval.data = buffer_eval.data * ema_decay + buffer_train.data * (1 - ema_decay)
```
A model is embedded as its flattened list of parameter scalars and its
flattened list of buffer scalars. -/

/-- The effective decay `min(1 - 1/(iters+1), ema_decay)` (line 83). -/
def ema_decay_eff (iters : Nat) (ema_decay : ℚ) : ℚ :=
  min (1 - 1 / (iters + 1)) ema_decay

/-- One of the two identical `zip` loops of `update_ema_variables`:
`eval.data = eval.data * d + train.data * (1 - d)` elementwise. -/
def ema_update_list (train eval_ : List ℚ) (d : ℚ) : List ℚ :=
  List.zipWith (fun s t => t * d + s * (1 - d)) train eval_

/-- A model's state as seen by `update_ema_variables`: flattened
parameters and buffers. -/
structure ModelState where
  params : List ℚ
  buffers : List ℚ
deriving DecidableEq, Repr

/-- `update_ema_variables` (lines 82-89): clamp the decay, then apply
the EMA formula to every parameter and to every buffer of the teacher. -/
def update_ema_variables (model model_teacher : ModelState) (ema_decay : ℚ)
    (iters : Nat) : ModelState :=
  let d := ema_decay_eff iters ema_decay
  { params := ema_update_list model.params model_teacher.params d
    buffers := ema_update_list model.buffers model_teacher.buffers d }

/-! ## Per-step execution order (source lines 252-327)

The body of the inner training loop, as a trace of its side-effecting
phases in source order:
teacher forward under `torch.no_grad()` (252-255), confidence-guided
cutmix (260-264), student forward pass (266), supervised loss (274-278),
`get_mask.masking(...)` which mutates the threshold state `prob_conf`
(281), the consistency and contrastive losses (282-312),
`loss.backward()` and `optimizer.step()` (314-316), EMA teacher update
(324-325), and the assignment `iters = epoch * len(trainloader_u) + i`
(327). -/

/-- The side-effecting phases of one training step. -/
inductive StepEvent where
  | teacherForward
  | mixing
  | studentForward
  | supervisedLoss
  | thresholdUpdate
  | consistencyLoss
  | contrastiveLoss
  | backwardOptStep
  | emaUpdate
  | itersAssign
deriving DecidableEq, Repr

/-- The phases of one training step in the order the source executes
them (lines 252-327). -/
def stepTrace : List StepEvent :=
  [.teacherForward, .mixing, .studentForward, .supervisedLoss,
   .thresholdUpdate, .consistencyLoss, .contrastiveLoss,
   .backwardOptStep, .emaUpdate, .itersAssign]

/-- Position of a phase in the step trace. -/
def stepPos (e : StepEvent) : Nat := stepTrace.indexOf e

/-! ## Checkpoint save and load (source lines 208-221 and 413-434)

Loading (`latest.pth`, lines 212-221):
```python
model.load_state_dict(checkpoint['model'])
optimizer.load_state_dict(checkpoint['optimizer'])
epoch = checkpoint['epoch']
previous_best_mdice = checkpoint['previous_best_mdice']
previous_best_mhd95 = checkpoint['previous_best_mhd95']
previous_best_acc = checkpoint['previous_best_acc']
```
Saving (lines 413-420):
```python
checkpoint = {
    'model': model.state_dict(),
    'optimizer': optimizer.state_dict(),
    'epoch': epoch,
    'previous_best_mdice': previous_best_mdice,
    'previous_best_mhd95': previous_best_mhd95,
    'previous_best_acc': previous_best_acc * 100.0,
}
```
Note the `* 100.0` applied to `previous_best_acc` at save time and not
undone at load time. State dicts are abstracted to `ModelState` /
a list of optimizer scalars. -/

/-- The components of the training state that the checkpoint is meant
to persist. -/
structure TrainSnapshot where
  model : ModelState
  optimizer : List ℚ
  epoch : Int
  previous_best_mdice : ℚ
  previous_best_mhd95 : ℚ
  previous_best_acc : ℚ
deriving DecidableEq, Repr

/-- The dictionary written to `latest.pth` (lines 413-420). -/
structure Checkpoint where
  model : ModelState
  optimizer : List ℚ
  epoch : Int
  previous_best_mdice : ℚ
  previous_best_mhd95 : ℚ
  previous_best_acc : ℚ
deriving DecidableEq, Repr

/-- Checkpoint construction (lines 413-420): every field is stored
as-is, except `previous_best_acc`, stored as
`previous_best_acc * 100.0` (line 419). -/
def saveCheckpoint (s : TrainSnapshot) : Checkpoint :=
  { model := s.model
    optimizer := s.optimizer
    epoch := s.epoch
    previous_best_mdice := s.previous_best_mdice
    previous_best_mhd95 := s.previous_best_mhd95
    previous_best_acc := s.previous_best_acc * 100 }

/-- Checkpoint restore (lines 214-219): every field is read back
verbatim. -/
def loadCheckpoint (c : Checkpoint) : TrainSnapshot :=
  { model := c.model
    optimizer := c.optimizer
    epoch := c.epoch
    previous_best_mdice := c.previous_best_mdice
    previous_best_mhd95 := c.previous_best_mhd95
    previous_best_acc := c.previous_best_acc }

/-! ## Teacher construction and storage aliasing (source lines 160-168)

```python
model_teacher = deepcopy(model)
model_teacher.cuda()
for p in model_teacher.parameters():
    p.requires_grad = False
with torch.no_grad():
    for t_params, s_params in zip(model_teacher.parameters(), model.parameters()):
        t_params.data = s_params.data
```
Tensor storage is embedded as a heap from addresses to values; each
parameter's `.data` is an address into the heap. `deepcopy` allocates
fresh addresses holding copies; the assignment
`t_params.data = s_params.data` rebinds the teacher parameter to the
student's address (Python reference assignment, not a value copy). The
SGD `optimizer.step()` (line 316) updates the student parameters in
place, i.e. it writes through the student addresses. -/

/-- Tensor heap: storage address to stored scalar value. -/
abbrev Heap : Type := Nat → ℚ

/-- A network as the list of storage addresses of its parameters'
`.data` tensors. -/
structure NetRef where
  params : List Nat
deriving DecidableEq, Repr

/-- Point update of the heap. -/
def heapUpdate (h : Heap) (a : Nat) (v : ℚ) : Heap :=
  fun x => if x = a then v else h x

/-- `deepcopy(model)` storage effect: addresses `base, base+1, ...`
receive copies of the values stored at `addrs`. -/
def deepcopyHeap (h : Heap) (addrs : List Nat) (base : Nat) : Heap :=
  fun a =>
    if hb : base ≤ a ∧ a - base < addrs.length then h (addrs.get ⟨a - base, hb.2⟩)
    else h a

/-- Lines 160-168: deepcopy the student into fresh storage at `base`,
then execute the sync loop `t_params.data = s_params.data`, which
rebinds every teacher parameter to the corresponding student address.
Returns the constructed teacher reference and the resulting heap. -/
def teacher_construct (model : NetRef) (h : Heap) (base : Nat) : NetRef × Heap :=
  let h2 := deepcopyHeap h model.params base
  let model_teacher : NetRef := { params := model.params }
  (model_teacher, h2)

/-- The in-place SGD parameter update of `optimizer.step()` (line 316):
each student parameter's storage is incremented by its (negative
learning-rate-scaled) update, writing through the student addresses. -/
def sgd_step (h : Heap) (addrs : List Nat) (deltas : List ℚ) : Heap :=
  (List.zip addrs deltas).foldl (fun hh p => heapUpdate hh p.1 (hh p.1 + p.2)) h

/-! ## The global step counter `iters` (source lines 210, 281, 307, 325, 327)

`iters` is initialized to `0` (line 210). Inside the double loop over
epochs and batches, `get_mask.masking(..., iters)` (line 281),
`get_current_consistency_weight(iters // 150)` (line 307) and
`update_ema_variables(..., iters)` (line 325) all read `iters`; only
afterwards is it reassigned `iters = epoch * len(trainloader_u) + i`
(line 327). The value read by all three consumers of batch `(e, i)` is
therefore the value assigned at the end of the previous loop
iteration. -/

/-- Line 327: `epoch * len(trainloader_u) + i`. -/
def batchIndex (L e i : Nat) : Nat := e * L + i

/-- The `(epoch, i)` pairs visited by the double loop of a fresh run:
epochs `0..E-1`, batches `0..L-1` within each epoch, in order. -/
def batchSeq (L E : Nat) : List (Nat × Nat) :=
  (List.range E).flatMap fun e => (List.range L).map fun i => (e, i)

/-- The value of `iters` read by the consumers of each successive
batch: at each batch the current value `cur` is consumed, then `iters`
is reassigned to `batchIndex L e i` (line 327) for the next batch. -/
def consumedTrace (L cur : Nat) : List (Nat × Nat) → List Nat
  | [] => []
  | (e, i) :: rest => cur :: consumedTrace L (batchIndex L e i) rest

/-! ## Class-aware adaptive thresholding (spec §4.2)

`util.CCB_utils.Class_Aware_Threshold` is imported by the training
script (line 228: `CCB_utils.Class_Aware_Threshold(num_classes=...,
momentum=0.99)`, line 281: `get_mask.masking(logits_mix, label_mix,
iters)`), but `util/CCB_utils.py` is not part of the repository
snapshot. The state and the `masking` operation are therefore
modelled from the spec. A batch is a list of pixels, each a pair
`(pseudo_label, confidence)`; the per-class state `prob_conf` is a
function from class index to threshold. -/

/-- The ignore-value marking unlabeled pixels (spec §3). -/
def ignore_value : Nat := 255

/-- Modelled from the spec: the confidences of the pixels of a batch
assigned pseudo-label `k`, excluding ignore-value pixels
(spec §4.2 step 1: "per-class mean confidence among pixels assigned
that pseudo-label (ignore pixels with ignore-value or where the class
has no pixels this batch)"). -/
def classConfs (pixels : List (Nat × ℚ)) (k : Nat) : List ℚ :=
  (pixels.filter fun p => decide (p.1 = k) && decide (p.1 ≠ ignore_value)).map Prod.snd

/-- Modelled from the spec: the batch's per-class mean confidence. -/
def batchMeanConf (pixels : List (Nat × ℚ)) (k : Nat) : ℚ :=
  (classConfs pixels k).sum / (classConfs pixels k).length

/-- Modelled from the spec: the threshold-state update of `masking`
(spec §4.2 step 2): `prob_conf[k] ← m * prob_conf[k] + (1-m) *
batch_mean[k]` for classes observed this batch, an explicit per-class
conditional update that skips unobserved classes. -/
def masking_update (m : ℚ) (prob_conf : Nat → ℚ) (pixels : List (Nat × ℚ)) :
    Nat → ℚ :=
  fun k =>
    if classConfs pixels k = [] then prob_conf k
    else m * prob_conf k + (1 - m) * batchMeanConf pixels k

/-- Modelled from the spec: the binary trust mask of `masking`
(spec §4.2 step 3): pixel trusted iff
`confidence[pixel] >= prob_conf[pseudo_label[pixel]]`. -/
def trust_mask (prob_conf : Nat → ℚ) (pixels : List (Nat × ℚ)) : List Bool :=
  pixels.map fun p => decide (prob_conf p.1 ≤ p.2)

/-- Modelled from the spec: the state of
`CCB_utils.Class_Aware_Threshold` (spec §4.2): the per-class running
thresholds and the momentum. -/
structure Class_Aware_Threshold where
  momentum : ℚ
  prob_conf : Nat → ℚ

/-- Modelled from the spec: `get_mask.masking(confidence, pseudo_label,
step)` — update the per-class thresholds from the batch, then emit the
binary trust mask computed against the updated thresholds (the
training script reads `get_mask.prob_conf` right after the call on
line 286, so the emitted mask and that read see the same state). -/
def masking (st : Class_Aware_Threshold) (pixels : List (Nat × ℚ)) :
    Class_Aware_Threshold × List Bool :=
  let st2 : Class_Aware_Threshold :=
    { st with prob_conf := masking_update st.momentum st.prob_conf pixels }
  (st2, trust_mask st2.prob_conf pixels)

/-- The threshold state after a sequence of `masking` batch updates. -/
def masking_run (m : ℚ) (prob_conf : Nat → ℚ) :
    List (List (Nat × ℚ)) → Nat → ℚ
  | [] => prob_conf
  | b :: rest => masking_run m (masking_update m prob_conf b) rest

/-! ## The contrastive-loss gate in `main` (source lines 286-296)

```python
cls_thresholds = get_mask.prob_conf[label_mix]
mask_u_weak = logits_mix.ge(cls_thresholds).to(logits_mix.dtype)
mask_u_weak = F.interpolate(mask_u_weak.unsqueeze(dim=1), size=..., mode='nearest')
valid_pix_u = F.interpolate(label_one_hot_encoder(label_mix...), size=..., mode='nearest')
valid_pix_u = valid_pix_u * mask_u_weak
```
Nearest-neighbor interpolation replicates values and is dropped from
the embedding (each modelled pixel stands for its nearest-neighbor
source pixel). -/

/-- Line 286: the per-pixel class threshold `prob_conf[label_mix]`. -/
def cls_thresholds (prob_conf : Nat → ℚ) (pixels : List (Nat × ℚ)) : List ℚ :=
  pixels.map fun p => prob_conf p.1

/-- Line 287: `logits_mix.ge(cls_thresholds)`, the per-pixel
confidence-versus-threshold gate. -/
def mask_u_weak (prob_conf : Nat → ℚ) (pixels : List (Nat × ℚ)) : List Bool :=
  List.zipWith (fun p t => decide (t ≤ p.2)) pixels (cls_thresholds prob_conf pixels)

/-- Lines 290-293: the one-hot encoding of `label_mix` multiplied by
`mask_u_weak` — the channel-`c` validity mask restricting pixels that
enter the contrastive loss. -/
def valid_pix_u (prob_conf : Nat → ℚ) (pixels : List (Nat × ℚ)) (c : Nat) :
    List Bool :=
  List.zipWith (fun p w => decide (p.1 = c) && w) pixels (mask_u_weak prob_conf pixels)

/-! ## Boundary contrastive loss (spec §4.4)

`CCB_utils.BoundaryClusteringOptimization` (called on lines 302-305)
is not part of the repository snapshot either; its per-class skip
behavior is modelled from the spec. The input is abstracted to the
per-class pools of valid pixel embeddings (one scalar summary per
pixel); the anchor/negative sampling and similarity arithmetic are
abstracted into a per-class term that — like the real sampling — is
only computable for a nonempty pool, which the `Except` models: an
`error` value stands for a raised exception. -/

/-- Modelled from the spec: the per-class contrastive terms
(spec §4.4 steps 3-5). Sampling anchors from an empty valid set would
raise; for a nonempty pool the intra and inter terms are computed from
the class centroid and the temperature. -/
def classContrastTerms (temp : ℚ) (pool : List ℚ) : Except String (ℚ × ℚ) :=
  if pool.isEmpty then .error "cannot sample anchors from an empty class pool"
  else
    let centroid := pool.sum / pool.length
    .ok (centroid / temp, (1 - centroid) / temp)

/-- Modelled from the spec: the loop over classes (spec §4.4 steps
1-2): a class with an empty valid set is skipped before any sampling
happens; contributing classes accumulate their terms and are counted. -/
def bcoFold (temp : ℚ) (acc : ℚ × ℚ × Nat) :
    List (List ℚ) → Except String (ℚ × ℚ × Nat)
  | [] => .ok acc
  | pool :: rest =>
    if pool.isEmpty then bcoFold temp acc rest
    else
      match classContrastTerms temp pool with
      | .error e => .error e
      | .ok r => bcoFold temp (acc.1 + r.1, acc.2.1 + r.2, acc.2.2 + 1) rest

/-- Modelled from the spec:
`CCB_utils.BoundaryClusteringOptimization(reps, preds, valid, ...)`
returns `(loss_intra, loss_inter)` averaged over the classes that
contributed (spec §4.4 step 6); with no contributing class both
losses are `0`. -/
def BoundaryClusteringOptimization (temp : ℚ) (validSets : List (List ℚ)) :
    Except String (ℚ × ℚ) :=
  match bcoFold temp (0, 0, 0) validSets with
  | .error e => .error e
  | .ok (si, se, n) => if n = 0 then .ok (0, 0) else .ok (si / n, se / n)

end CCB

namespace CCB

/-! ## First theorems -/

/-- C10: for every dataset string not containing `"ACDC"`,
`patients_to_slices` selects the Prostate lookup table (the `elif`
condition is the always-truthy constant `"Prostate"`), the `else`
branch that prints `"Error"` is unreachable for every input, and a
`labeled-num` key absent from the selected table makes the function
fail with a `KeyError` (here: return `none`) rather than return a
value. -/
theorem patients_to_slices_prostate_fallback (dataset patiens_num : String)
    (hnotacdc : strContains "ACDC" dataset = false)
    (hmiss : prostate_ref_dict.lookup patiens_num = none) :
    patients_to_slices_table dataset = some prostate_ref_dict ∧
    (∀ ds : String, patients_to_slices_table ds ≠ none) ∧
    patients_to_slices dataset patiens_num = none := by
  have hp : "Prostate".length ≠ 0 := by decide
  refine ⟨?_, ?_, ?_⟩
  · simp [patients_to_slices_table, hnotacdc, hp]
  · intro ds
    unfold patients_to_slices_table
    by_cases h : strContains "ACDC" ds <;> simp [h, hp]
  · simp [patients_to_slices, patients_to_slices_table, hnotacdc, hp, hmiss]

/-- Witness for C10 at a concrete input: dataset `"Foo"` does not
contain `"ACDC"`, `"7"` is not a key of the Prostate table, and the
call fails with a `KeyError` instead of returning a value. -/
theorem patients_to_slices_prostate_fallback_witness :
    strContains "ACDC" "Foo" = false ∧
    prostate_ref_dict.lookup "7" = none ∧
    patients_to_slices "Foo" "7" = none := by
  refine ⟨by decide, by decide, ?_⟩
  exact (patients_to_slices_prostate_fallback "Foo" "7" (by decide) (by decide)).2.2

/-- The EMA loop with effective decay `0` copies the student values
verbatim when the two lists have the same length. -/
theorem ema_update_list_decay_zero (train eval_ : List ℚ)
    (h : train.length = eval_.length) : ema_update_list train eval_ 0 = train := by
  induction train generalizing eval_ with
  | nil => rfl
  | cons s rest ih =>
    cases eval_ with
    | nil => simp at h
    | cons t rest2 =>
      simp only [ema_update_list, List.zipWith_cons_cons, List.cons.injEq]
      exact ⟨by ring, ih rest2 (by simpa using h)⟩

/-- C4: for structurally identical parameter and buffer lists, every
decay ceiling and every step index, one call of `update_ema_variables`
sets each teacher parameter and each buffer to
`d * teacher + (1 - d) * student` with
`d = min (1 - 1/(iters+1)) ema_decay`; and at step `0` (for a
nonnegative ceiling) the effective decay is `0`, so the teacher equals
the student afterwards, parameters and buffers alike. -/
theorem update_ema_variables_spec (model model_teacher : ModelState)
    (ema_decay : ℚ) (iters : Nat)
    (hp : model.params.length = model_teacher.params.length)
    (hb : model.buffers.length = model_teacher.buffers.length) :
    (∀ i (hs : i < model.params.length) (ht : i < model_teacher.params.length)
        (hr : i < (update_ema_variables model model_teacher ema_decay iters).params.length),
      (update_ema_variables model model_teacher ema_decay iters).params.get ⟨i, hr⟩ =
        ema_decay_eff iters ema_decay * model_teacher.params.get ⟨i, ht⟩ +
          (1 - ema_decay_eff iters ema_decay) * model.params.get ⟨i, hs⟩) ∧
    (∀ i (hs : i < model.buffers.length) (ht : i < model_teacher.buffers.length)
        (hr : i < (update_ema_variables model model_teacher ema_decay iters).buffers.length),
      (update_ema_variables model model_teacher ema_decay iters).buffers.get ⟨i, hr⟩ =
        ema_decay_eff iters ema_decay * model_teacher.buffers.get ⟨i, ht⟩ +
          (1 - ema_decay_eff iters ema_decay) * model.buffers.get ⟨i, hs⟩) ∧
    (iters = 0 → 0 ≤ ema_decay →
      update_ema_variables model model_teacher ema_decay iters =
        { params := model.params, buffers := model.buffers }) := by
  refine ⟨?_, ?_, ?_⟩
  · intro i hs ht hr
    simp only [update_ema_variables, ema_update_list, List.get_eq_getElem,
      List.getElem_zipWith]
    ring
  · intro i hs ht hr
    simp only [update_ema_variables, ema_update_list, List.get_eq_getElem,
      List.getElem_zipWith]
    ring
  · intro h0 hd
    subst h0
    have hz : ema_decay_eff 0 ema_decay = 0 := by
      simp [ema_decay_eff, min_eq_left hd]
    simp only [update_ema_variables, hz]
    rw [ema_update_list_decay_zero _ _ hp, ema_update_list_decay_zero _ _ hb]

/-- Witness for C4 at a concrete input: one parameter and one buffer,
decay ceiling `1/2`, step `0`: after the update the teacher equals the
student exactly. -/
theorem update_ema_variables_spec_witness :
    ([(1 : ℚ)].length = [(3 : ℚ)].length) ∧
    ([(2 : ℚ)].length = [(4 : ℚ)].length) ∧
    update_ema_variables ⟨[1], [2]⟩ ⟨[3], [4]⟩ (1 / 2) 0 = ⟨[1], [2]⟩ := by
  refine ⟨rfl, rfl, ?_⟩
  exact (update_ema_variables_spec ⟨[1], [2]⟩ ⟨[3], [4]⟩ (1 / 2) 0 rfl rfl).2.2
    rfl (by norm_num)

/-- C1: the save-then-load round trip is the identity on the model
parameters, the optimizer state, the epoch counter and
`previous_best_mdice`/`previous_best_mhd95`, but not on
`previous_best_acc`: line 419 stores `previous_best_acc * 100.0` and
the load path (line 219) does not divide it back, so a snapshot with
`previous_best_acc = 1` reloads with `previous_best_acc = 100`. The
claimed identity on all five components fails on this component. -/
theorem checkpoint_roundtrip_acc_bug :
    loadCheckpoint (saveCheckpoint ⟨⟨[1], [2]⟩, [3], 5, 80, 2, 1⟩) ≠
      ⟨⟨[1], [2]⟩, [3], 5, 80, 2, 1⟩ ∧
    loadCheckpoint (saveCheckpoint ⟨⟨[1], [2]⟩, [3], 5, 80, 2, 1⟩) =
      ⟨⟨[1], [2]⟩, [3], 5, 80, 2, 100⟩ := by
  constructor
  · intro h
    have := congrArg TrainSnapshot.previous_best_acc h
    norm_num [loadCheckpoint, saveCheckpoint] at this
  · norm_num [loadCheckpoint, saveCheckpoint]

/-- C2: the construction of the teacher (lines 160-168) first
deep-copies the student into fresh storage, but the sync loop
`t_params.data = s_params.data` then rebinds every teacher parameter
to the student's storage address, so after construction the teacher's
parameter tensors DO share storage with the student's; consequently
the in-place SGD step on the student changes the value seen through
the teacher's parameter at the first training step. Concretely: one
student parameter at address `0` holding `0`, deepcopy at base `1`;
after construction the teacher's address list equals the student's,
the value read through it is `0`, and after an in-place step adding
`1` to the student parameter the value read through the teacher's
address is `1`, not `0`. -/
theorem teacher_alias_step_bug :
    (teacher_construct ⟨[0]⟩ (fun _ => 0) 1).1.params = ([0] : List Nat) ∧
    (teacher_construct ⟨[0]⟩ (fun _ => 0) 1).2 0 = 0 ∧
    sgd_step (teacher_construct ⟨[0]⟩ (fun _ => 0) 1).2 [0] [1] 0 = 1 := by
  refine ⟨rfl, ?_, ?_⟩
  · norm_num [teacher_construct, deepcopyHeap]
  · norm_num [teacher_construct, deepcopyHeap, sgd_step, heapUpdate]

/-- The consumed-`iters` trace of a nonempty batch sequence: the first
batch consumes the incoming value, every later batch consumes the
index assigned at the end of the batch before it. -/
theorem consumedTrace_eq_cons (L cur : Nat) (bs : List (Nat × Nat)) (h : bs ≠ []) :
    consumedTrace L cur bs =
      cur :: (bs.map (fun p => batchIndex L p.1 p.2)).dropLast := by
  induction bs generalizing cur with
  | nil => exact absurd rfl h
  | cons b rest ih =>
    obtain ⟨e, i⟩ := b
    cases rest with
    | nil => simp [consumedTrace]
    | cons b2 rest2 =>
      rw [show consumedTrace L cur ((e, i) :: b2 :: rest2) =
        cur :: consumedTrace L (batchIndex L e i) (b2 :: rest2) from rfl]
      rw [ih (batchIndex L e i) (by simp)]
      simp [List.dropLast]

/-- The line-327 indices of the batches of a fresh run, in visit
order, are exactly `0, 1, ..., E*L - 1`. -/
theorem map_batchIndex_batchSeq (L E : Nat) :
    (batchSeq L E).map (fun p => batchIndex L p.1 p.2) = List.range (E * L) := by
  induction E with
  | zero => simp [batchSeq]
  | succ E ih =>
    rw [batchSeq, List.range_succ, List.flatMap_append, List.map_append]
    rw [show ((List.range E).flatMap fun e => (List.range L).map fun i => (e, i)) =
      batchSeq L E from rfl, ih]
    rw [show (E + 1) * L = E * L + L by ring, List.range_add]
    congr 1
    simp only [List.flatMap_cons, List.flatMap_nil, List.append_nil, List.map_map]
    exact List.map_congr_left (fun a _ => by simp [Function.comp, batchIndex])

/-- A fresh run visits `E * L` batches. -/
theorem length_batchSeq (L E : Nat) : (batchSeq L E).length = E * L := by
  have h := congrArg List.length (map_batchIndex_batchSeq L E)
  simpa using h

/-- C9: the step counter `iters` is assigned only after the operations
that consume it. At the batch with index `batchIndex L e i = e*L + i`
of a fresh run over `E` epochs of `L` batches, the value of `iters`
received by `masking()`, the consistency ramp-up weight and the EMA
update is the value produced by the previous loop iteration — `0` for
the batch at index `0` (and hence also for the batch at index `1`,
since the first iteration assigns `0*L + 0 = 0`), and `e*L + i - 1`
otherwise — and in particular it differs from the current batch index
`e*L + i`, which is only computed afterwards on line 327. -/
theorem iters_read_is_previous (L E e i : Nat) (he : e < E) (hi : i < L) :
    ((consumedTrace L 0 (batchSeq L E))[batchIndex L e i]? =
      some (if batchIndex L e i = 0 then 0 else batchIndex L e i - 1)) ∧
    (batchIndex L e i ≠ 0 →
      (consumedTrace L 0 (batchSeq L E))[batchIndex L e i]? ≠
        some (batchIndex L e i)) := by
  have hp : batchIndex L e i < E * L := by
    have h1 : batchIndex L e i < (e + 1) * L := by
      simp only [batchIndex, add_mul, one_mul]
      omega
    have h2 : (e + 1) * L ≤ E * L := Nat.mul_le_mul_right L (by omega)
    omega
  have hne : batchSeq L E ≠ [] := by
    intro h
    have hl := length_batchSeq L E
    rw [h] at hl
    simp at hl
    omega
  have htrace : consumedTrace L 0 (batchSeq L E) =
      0 :: (List.range (E * L)).dropLast := by
    rw [consumedTrace_eq_cons L 0 _ hne, map_batchIndex_batchSeq]
  have hval : (consumedTrace L 0 (batchSeq L E))[batchIndex L e i]? =
      some (if batchIndex L e i = 0 then 0 else batchIndex L e i - 1) := by
    rw [htrace]
    cases hcase : batchIndex L e i with
    | zero => simp
    | succ k =>
      have hk : k < (List.range (E * L)).dropLast.length := by
        simp
        omega
      rw [List.getElem?_cons_succ, List.getElem?_eq_getElem hk,
        List.getElem_dropLast, List.getElem_range]
      simp
  refine ⟨hval, fun h0 hcontra => ?_⟩
  rw [hval] at hcontra
  have heq := Option.some.inj hcontra
  rw [if_neg h0] at heq
  omega

/-- Witness for C9 at a concrete input: a fresh run with `L = 2`
batches per epoch and `E = 1` epoch; at batch `(0, 1)` (the second of
the run) the consumers receive `0`, not the batch's own index `1`. -/
theorem iters_read_is_previous_witness :
    (0 < 1 ∧ 1 < 2) ∧
    (consumedTrace 2 0 (batchSeq 2 1))[batchIndex 2 0 1]? =
      some (if batchIndex 2 0 1 = 0 then 0 else batchIndex 2 0 1 - 1) :=
  ⟨⟨by decide, by decide⟩, (iters_read_is_previous 2 1 0 1 (by decide) (by decide)).1⟩

/-- A list of rationals each at most `1` sums to at most its length. -/
theorem list_sum_le_length (l : List ℚ) (h : ∀ x ∈ l, x ≤ 1) :
    l.sum ≤ (l.length : ℚ) := by
  induction l with
  | nil => simp
  | cons x rest ih =>
    have hx := h x (List.mem_cons_self x rest)
    have hr := ih fun y hy => h y (List.mem_cons_of_mem x hy)
    simp only [List.sum_cons, List.length_cons]
    push_cast
    linarith

/-- Every confidence collected by `classConfs` comes from a pixel of
the batch. -/
theorem classConfs_mem (pixels : List (Nat × ℚ)) (k : Nat) (x : ℚ)
    (hx : x ∈ classConfs pixels k) : ∃ p ∈ pixels, p.2 = x := by
  obtain ⟨p, hp, hpx⟩ := List.mem_map.1 hx
  exact ⟨p, (List.mem_filter.1 hp).1, hpx⟩

/-- One `masking` threshold update keeps a class threshold inside
`[0,1]` when the momentum is in `(0,1)` and the batch confidences are
in `[0,1]`. -/
theorem masking_update_bounds (m : ℚ) (hm0 : 0 < m) (hm1 : m < 1)
    (pc : Nat → ℚ) (pixels : List (Nat × ℚ)) (k : Nat)
    (hk : 0 ≤ pc k ∧ pc k ≤ 1)
    (hconf : ∀ p ∈ pixels, 0 ≤ p.2 ∧ p.2 ≤ 1) :
    0 ≤ masking_update m pc pixels k ∧ masking_update m pc pixels k ≤ 1 := by
  unfold masking_update
  by_cases h : classConfs pixels k = []
  · simp only [h, if_pos]
    exact hk
  · simp only [h, if_neg, ite_false]
    have hmem : ∀ x ∈ classConfs pixels k, 0 ≤ x ∧ x ≤ 1 := by
      intro x hx
      obtain ⟨p, hp, hpx⟩ := classConfs_mem pixels k x hx
      rw [← hpx]
      exact hconf p hp
    have hlen : 0 < ((classConfs pixels k).length : ℚ) := by
      have := List.length_pos.2 h
      exact_mod_cast this
    have hsum0 : 0 ≤ (classConfs pixels k).sum :=
      List.sum_nonneg fun x hx => (hmem x hx).1
    have hsum1 : (classConfs pixels k).sum ≤ ((classConfs pixels k).length : ℚ) :=
      list_sum_le_length _ fun x hx => (hmem x hx).2
    have hμ0 : 0 ≤ batchMeanConf pixels k := div_nonneg hsum0 (le_of_lt hlen)
    have hμ1 : batchMeanConf pixels k ≤ 1 := by
      rw [batchMeanConf, div_le_one hlen]
      exact hsum1
    constructor
    · have h1 : 0 ≤ m * pc k := mul_nonneg (le_of_lt hm0) hk.1
      have h2 : 0 ≤ (1 - m) * batchMeanConf pixels k :=
        mul_nonneg (by linarith) hμ0
      linarith
    · nlinarith [hk.2, hμ1, hm0, hm1]

/-- C5: for every class, every momentum in `(0,1)`, every initial
threshold function with values in `[0,1]`, and every sequence of
batches whose confidences lie in `[0,1]`, the per-class threshold
`prob_conf[k]` remains within `[0,1]` after any number of `masking`
updates. -/
theorem prob_conf_unit_interval (m : ℚ) (hm0 : 0 < m) (hm1 : m < 1)
    (batches : List (List (Nat × ℚ))) (pc : Nat → ℚ)
    (hpc : ∀ k, 0 ≤ pc k ∧ pc k ≤ 1)
    (hconf : ∀ b ∈ batches, ∀ p ∈ b, 0 ≤ p.2 ∧ p.2 ≤ 1) :
    ∀ k, 0 ≤ masking_run m pc batches k ∧ masking_run m pc batches k ≤ 1 := by
  revert hpc hconf
  induction batches generalizing pc with
  | nil =>
    intro hpc _
    exact hpc
  | cons b rest ih =>
    intro hpc hconf
    exact ih (masking_update m pc b)
      (fun k2 => masking_update_bounds m hm0 hm1 pc b k2 (hpc k2)
        (fun p hp => hconf b (List.mem_cons_self b rest) p hp))
      (fun b2 hb2 p hp => hconf b2 (List.mem_cons_of_mem b hb2) p hp)

/-- Witness for C5 at a concrete input: momentum `1/2`, all thresholds
initialized at `1/2`, one batch with a single class-0 pixel of
confidence `1`; the class-0 threshold stays within `[0,1]`. -/
theorem prob_conf_unit_interval_witness :
    (0 < (1 : ℚ)/2) ∧ ((1 : ℚ)/2 < 1) ∧
    (0 ≤ masking_run ((1 : ℚ)/2) (fun _ => (1 : ℚ)/2) [[(0, 1)]] 0 ∧
      masking_run ((1 : ℚ)/2) (fun _ => (1 : ℚ)/2) [[(0, 1)]] 0 ≤ 1) := by
  refine ⟨by norm_num, by norm_num, ?_⟩
  refine prob_conf_unit_interval ((1 : ℚ)/2) (by norm_num) (by norm_num)
    [[(0, 1)]] (fun _ => (1 : ℚ)/2) (fun k => by norm_num) ?_ 0
  intro b hb p hp
  simp only [List.mem_singleton] at hb
  subst hb
  simp only [List.mem_singleton] at hp
  subst hp
  norm_num

/-- C6: if class `k` has zero valid pixels in the batch (no pixel
carries pseudo-label `k`, or every such pixel carries the
ignore-value), a `masking` call leaves `prob_conf[k]` unchanged: the
update is an explicit per-class conditional, not a global-shape
broadcast. -/
theorem masking_unobserved_class_unchanged (st : Class_Aware_Threshold)
    (pixels : List (Nat × ℚ)) (k : Nat)
    (hk : ∀ p ∈ pixels, p.1 = k → p.1 = ignore_value) :
    ((masking st pixels).1).prob_conf k = st.prob_conf k := by
  have hempty : classConfs pixels k = [] := by
    unfold classConfs
    have hf : (pixels.filter fun p =>
        decide (p.1 = k) && decide (p.1 ≠ ignore_value)) = [] := by
      rw [List.filter_eq_nil_iff]
      intro p hp
      simp only [Bool.and_eq_true, decide_eq_true_eq, not_and, not_not]
      exact hk p hp
    rw [hf, List.map_nil]
  simp [masking, masking_update, hempty]

/-- Witness for C6 at a concrete input: a batch with a single class-1
pixel; the class-0 threshold `3/4` is unchanged by the call. -/
theorem masking_unobserved_class_unchanged_witness :
    (∀ p ∈ [((1 : Nat), (1 : ℚ)/2)], p.1 = 0 → p.1 = ignore_value) ∧
    ((masking ⟨(1 : ℚ)/2, fun _ => (3 : ℚ)/4⟩ [((1 : Nat), (1 : ℚ)/2)]).1).prob_conf 0 =
      (3 : ℚ)/4 := by
  constructor
  · intro p hp h
    simp only [List.mem_singleton] at hp
    rw [hp] at h
    simp at h
  · exact masking_unobserved_class_unchanged ⟨(1 : ℚ)/2, fun _ => (3 : ℚ)/4⟩
      [((1 : Nat), (1 : ℚ)/2)] 0
      (fun p hp h => by
        simp only [List.mem_singleton] at hp
        rw [hp] at h
        simp at h)

/-- C7: the trust mask marks a pixel as trusted iff
`confidence[pixel] >= prob_conf[pseudo_label[pixel]]`; `masking` emits
exactly that mask against its updated thresholds, and the same gating
predicate defines both `mask_u_weak` (line 287, the gate of the
consistency-style validity) and each channel of `valid_pix_u`
(lines 290-293, the validity mask restricting the pixels that enter
the contrastive loss). -/
theorem trust_gate_iff (pc : Nat → ℚ) (st : Class_Aware_Threshold)
    (pixels : List (Nat × ℚ)) (i : Nat) (hi : i < pixels.length) :
    ((masking st pixels).2 =
      trust_mask ((masking st pixels).1).prob_conf pixels) ∧
    (∀ h1 : i < (trust_mask pc pixels).length,
      ((trust_mask pc pixels).get ⟨i, h1⟩ = true ↔
        pc (pixels.get ⟨i, hi⟩).1 ≤ (pixels.get ⟨i, hi⟩).2)) ∧
    (∀ h2 : i < (mask_u_weak pc pixels).length,
      ((mask_u_weak pc pixels).get ⟨i, h2⟩ = true ↔
        pc (pixels.get ⟨i, hi⟩).1 ≤ (pixels.get ⟨i, hi⟩).2)) ∧
    (∀ c, ∀ h3 : i < (valid_pix_u pc pixels c).length,
      ((valid_pix_u pc pixels c).get ⟨i, h3⟩ = true ↔
        ((pixels.get ⟨i, hi⟩).1 = c ∧
          pc (pixels.get ⟨i, hi⟩).1 ≤ (pixels.get ⟨i, hi⟩).2))) := by
  refine ⟨rfl, ?_, ?_, ?_⟩
  · intro h1
    simp [trust_mask, List.get_eq_getElem, List.getElem_map]
  · intro h2
    simp [mask_u_weak, cls_thresholds, List.get_eq_getElem, List.getElem_zipWith,
      List.getElem_map]
  · intro c h3
    simp [valid_pix_u, mask_u_weak, cls_thresholds, List.get_eq_getElem,
      List.getElem_zipWith, List.getElem_map, Bool.and_eq_true, and_comm]

/-- Witness for C7 at a concrete input: one pixel of class `0` with
confidence `3/4` against a constant threshold `1/2`: trusted, since
`1/2 <= 3/4`. -/
theorem trust_gate_iff_witness :
    (0 < [((0 : Nat), (3 : ℚ)/4)].length) ∧
    ((trust_mask (fun _ => (1 : ℚ)/2) [((0 : Nat), (3 : ℚ)/4)]).get
        ⟨0, by decide⟩ = true ↔
      (fun _ => (1 : ℚ)/2) (([((0 : Nat), (3 : ℚ)/4)].get ⟨0, by decide⟩)).1 ≤
        ([((0 : Nat), (3 : ℚ)/4)].get ⟨0, by decide⟩).2) := by
  refine ⟨by decide, ?_⟩
  exact (trust_gate_iff (fun _ => (1 : ℚ)/2) ⟨(1 : ℚ)/2, fun _ => (1 : ℚ)/2⟩
    [((0 : Nat), (3 : ℚ)/4)] 0 (by decide)).2.1 (by decide)

/-- `bcoFold` never reaches the error branch: the emptiness guard
skips a class before any sampling is attempted. -/
theorem bcoFold_ok (temp : ℚ) (sets : List (List ℚ)) :
    ∀ acc, ∃ r, bcoFold temp acc sets = .ok r := by
  induction sets with
  | nil => exact fun acc => ⟨acc, rfl⟩
  | cons pool rest ih =>
    intro acc
    by_cases h : pool.isEmpty
    · simpa [bcoFold, h] using ih acc
    · simp only [bcoFold, h, ite_false, classContrastTerms, Bool.false_eq_true,
        if_false]
      exact ih _

/-- Skipping: an empty class pool anywhere in the list leaves the
`bcoFold` accumulation unchanged. -/
theorem bcoFold_skip_empty (temp : ℚ) (pre : List (List ℚ)) :
    ∀ post acc, bcoFold temp acc (pre ++ [] :: post) =
      bcoFold temp acc (pre ++ post) := by
  induction pre with
  | nil =>
    intro post acc
    simp [bcoFold]
  | cons pool rest ih =>
    intro post acc
    by_cases h : pool.isEmpty
    · simp [bcoFold, h, ih]
    · simp [bcoFold, h, classContrastTerms, ih]

/-- C8: `BoundaryClusteringOptimization` never raises — it returns a
`(loss_intra, loss_inter)` pair for every input, including inputs
where only one class (or none) has valid pixels — and a class with an
empty valid pixel set is skipped: removing it from the input leaves
the returned pair unchanged, i.e. it contributes zero. -/
theorem BoundaryClusteringOptimization_skips_empty (temp : ℚ)
    (validSets : List (List ℚ)) :
    (∃ r, BoundaryClusteringOptimization temp validSets = .ok r) ∧
    (∀ pre post : List (List ℚ),
      BoundaryClusteringOptimization temp (pre ++ [] :: post) =
        BoundaryClusteringOptimization temp (pre ++ post)) := by
  constructor
  · obtain ⟨r, hr⟩ := bcoFold_ok temp validSets (0, 0, 0)
    unfold BoundaryClusteringOptimization
    rw [hr]
    obtain ⟨si, se, n⟩ := r
    by_cases h : n = 0
    · exact ⟨(0, 0), by simp [h]⟩
    · exact ⟨(si / n, se / n), by simp [h]⟩
  · intro pre post
    unfold BoundaryClusteringOptimization
    rw [bcoFold_skip_empty]

/-- C3 counterexample: in the source trace, the mutation of the
adaptive threshold state `prob_conf` (inside `get_mask.masking` on
line 281) happens strictly before the backward/optimizer step
(lines 314-316) and before the EMA update (lines 324-325), so the
claimed placement of the threshold-state update after both is false. -/
theorem stepTrace_threshold_before_backward :
    stepPos .thresholdUpdate < stepPos .backwardOptStep ∧
    stepPos .thresholdUpdate < stepPos .emaUpdate := by
  decide

/-- C3 amended: within every training step the phases execute in the
fixed order teacher forward (no-gradient) → mixing → student forward
→ loss computation → backward/optimizer update → EMA update; but the
mutation of the adaptive threshold state `prob_conf` happens during
loss computation — after the student forward pass and the supervised
loss, before the consistency and contrastive losses, and in particular
before the backward/optimizer step and the EMA update of that same
step. -/
theorem stepTrace_order :
    stepPos .teacherForward < stepPos .mixing ∧
    stepPos .mixing < stepPos .studentForward ∧
    stepPos .studentForward < stepPos .supervisedLoss ∧
    stepPos .supervisedLoss < stepPos .thresholdUpdate ∧
    stepPos .thresholdUpdate < stepPos .consistencyLoss ∧
    stepPos .consistencyLoss < stepPos .contrastiveLoss ∧
    stepPos .contrastiveLoss < stepPos .backwardOptStep ∧
    stepPos .backwardOptStep < stepPos .emaUpdate ∧
    stepPos .emaUpdate < stepPos .itersAssign := by
  decide

end CCB
